import Mathlib

/-!
Verification of the fltk-egui input adapter (`src/lib.rs`).

This file is a shallow embedding of the adapter's data model and event
dispatcher into Lean 4:

* `f32` values are modelled as exact rationals (`ℚ`); the transcendental
  `f32::exp` used by the zoom path is an external library operation and is
  modelled as an abstract function `fexp : ℚ → ℚ` carried by the host
  environment.
* `i32`/`u32` values are modelled as `Int`/`Nat`, with the `as u32` cast
  written as an explicit `% 2^32`.
* The FLTK side (window queries, `app::event_*` accessors) is a read-only
  environment record `HostEnv`: `input_to_egui` reads it exactly where the
  source calls the corresponding FLTK accessor.
* Mutation of `EguiState` becomes explicit state passing.
-/

set_option autoImplicit false

/-- Keys of the egui `Key` enumeration that the adapter can produce
(egui 0.16). -/
inductive EguiKey where
  | ArrowLeft | ArrowUp | ArrowRight | ArrowDown
  | Escape | Tab | Backspace | Insert | Home | Delete | End
  | PageDown | PageUp | Enter | Space
  | A | B | C | D | E | F | G | H | I | J | K | L | M
  | N | O | P | Q | R | S | T | U | V | W | X | Y | Z
  | Num0 | Num1 | Num2 | Num3 | Num4 | Num5 | Num6 | Num7 | Num8 | Num9
deriving DecidableEq, Fintype, Repr

/-- Pointer buttons of egui that the adapter can produce. -/
inductive EguiPointerButton where
  | Primary | Secondary | Middle
deriving DecidableEq, Repr

/-- Modifier snapshot (egui `Modifiers`). -/
structure Modifiers where
  alt : Bool
  ctrl : Bool
  shift : Bool
  mac_cmd : Bool
  command : Bool
deriving DecidableEq, Repr

/-- Default modifiers: everything released (egui `Modifiers::default()`). -/
def Modifiers.default : Modifiers :=
  { alt := false, ctrl := false, shift := false, mac_cmd := false, command := false }

/-- A 2-d position in DPI-independent units (egui `Pos2`), `f32` modelled
as `ℚ`. -/
structure Pos2 where
  x : ℚ
  y : ℚ
deriving DecidableEq, Repr

/-- A 2-d vector (egui `Vec2`), `f32` modelled as `ℚ`. -/
structure Vec2 where
  x : ℚ
  y : ℚ
deriving DecidableEq, Repr

/-- A rectangle given by its two corners (egui `Rect`). -/
structure Rect where
  min : Pos2
  max : Pos2
deriving DecidableEq, Repr

/-- Embedding of egui `Rect::from_min_size`. -/
def Rect.from_min_size (p : Pos2) (size : Vec2) : Rect :=
  { min := p, max := { x := p.x + size.x, y := p.y + size.y } }

/-- Width of a rectangle. -/
def Rect.width (r : Rect) : ℚ := r.max.x - r.min.x

/-- Height of a rectangle. -/
def Rect.height (r : Rect) : ℚ := r.max.y - r.min.y

/-- The egui events the adapter pushes (the used subset of egui `Event`). -/
inductive EguiEvent where
  | PointerButton (pos : Pos2) (button : EguiPointerButton)
      (pressed : Bool) (modifiers : Modifiers)
  | PointerMoved (pos : Pos2)
  | Text (s : String)
  | Key (key : EguiKey) (pressed : Bool) (modifiers : Modifiers)
  | Copy
  | Cut
  | Zoom (v : ℚ)
  | Scroll (delta : Vec2)
deriving DecidableEq, Repr

/-- The used fields of egui `RawInput`. -/
structure RawInput where
  events : List EguiEvent
  screen_rect : Option Rect
  pixels_per_point : Option ℚ
deriving DecidableEq, Repr

/-- Cursor shapes of FLTK `enums::Cursor` used by the adapter. -/
inductive FltkCursor where
  | NoCursor | Arrow | Help | Hand | WE | NESW | NWSE | NS
  | Insert | Cross | Wait | Move
deriving DecidableEq, Repr

/-- Cursor icons of egui `CursorIcon` (egui 0.16). -/
inductive CursorIcon where
  | Default | NoIcon | ContextMenu | Help | PointingHand | Progress | Wait
  | Cell | Crosshair | Text | VerticalText | Alias | Copy | Move | NoDrop
  | NotAllowed | Grab | Grabbing | AllScroll
  | ResizeHorizontal | ResizeNeSw | ResizeNwSe | ResizeVertical
  | ZoomIn | ZoomOut
deriving DecidableEq, Repr

/-- The cursor cache (`FusedCursor`): the last cursor icon applied to the
host window. -/
structure FusedCursor where
  cursor_icon : FltkCursor
deriving DecidableEq, Repr

/-- Construction of a new `FusedCursor` (`FusedCursor::new`): the default
cursor is the arrow. -/
def FusedCursor.new : FusedCursor := { cursor_icon := FltkCursor.Arrow }

/-- FLTK mouse buttons as reported by `app::event_mouse_button`; `Other`
stands for every button outside the three the adapter maps. -/
inductive MouseButton where
  | Left | Middle | Right | Other
deriving DecidableEq, Repr

/-- Result of `app::event_dy()`; `Other` stands for the wheel directions the
adapter's wildcard arm ignores. -/
inductive MouseWheelDir where
  | Up | Down | Other
deriving DecidableEq, Repr

/-- FLTK event tags (`enums::Event`). The adapter handles eight of them;
the rest fall through to the no-op arm. -/
inductive FltkEvent where
  | NoEvent | Push | Released | Enter | Leave | Drag | Focus | Unfocus
  | KeyDown | KeyUp | Close | Move | Shortcut | Deactivate | Activate
  | Hide | Show | Paste | SelectionClear | MouseWheel
  | DndEnter | DndDrag | DndRelease | DndLeave
  | ScreenConfigChanged | Fullscreen | ZoomGesture | Resize
deriving DecidableEq, Repr

/-- FLTK modifier bit `FL_SHIFT`. -/
def flSHIFT : Nat := 0x00010000
/-- FLTK modifier bit `FL_CTRL`. -/
def flCTRL : Nat := 0x00040000
/-- FLTK modifier bit `FL_ALT`. -/
def flALT : Nat := 0x00080000
/-- FLTK modifier bit `FL_META`. -/
def flMETA : Nat := 0x00400000
/-- FLTK `FL_COMMAND`: `FL_CTRL` on non-macOS platforms (on macOS it is
`FL_META`); this embedding fixes the non-macOS value. -/
def flCOMMAND : Nat := flCTRL

/-- FLTK key code constants (X11 keysym values used by fltk-rs
`enums::Key`). -/
def fkBackSpace : Nat := 0xff08
/-- FLTK key code `Key::Tab`. -/
def fkTab : Nat := 0xff09
/-- FLTK key code `Key::Enter`. -/
def fkEnter : Nat := 0xff0d
/-- FLTK key code `Key::Escape`. -/
def fkEscape : Nat := 0xff1b
/-- FLTK key code `Key::Home`. -/
def fkHome : Nat := 0xff50
/-- FLTK key code `Key::Left`. -/
def fkLeft : Nat := 0xff51
/-- FLTK key code `Key::Up`. -/
def fkUp : Nat := 0xff52
/-- FLTK key code `Key::Right`. -/
def fkRight : Nat := 0xff53
/-- FLTK key code `Key::Down`. -/
def fkDown : Nat := 0xff54
/-- FLTK key code `Key::PageUp`. -/
def fkPageUp : Nat := 0xff55
/-- FLTK key code `Key::PageDown`. -/
def fkPageDown : Nat := 0xff56
/-- FLTK key code `Key::End`. -/
def fkEnd : Nat := 0xff57
/-- FLTK key code `Key::Insert`. -/
def fkInsert : Nat := 0xff63
/-- FLTK key code `Key::Delete`. -/
def fkDelete : Nat := 0xffff

/-- Embedding of fltk-rs `Key::to_char`: a key code in the ASCII range is
its character, anything else has none. -/
def fltkKeyToChar (key : Nat) : Option Char :=
  if 0 < key ∧ key < 128 then some (Char.ofNat key) else none

/-- The character arm of `translate_virtual_key_code`: the `match k { ... }`
on `key.to_char()` in the source. -/
def charKey (c : Char) : Option EguiKey :=
  match c with
  | ' ' => some EguiKey.Space
  | 'a' => some EguiKey.A
  | 'b' => some EguiKey.B
  | 'c' => some EguiKey.C
  | 'd' => some EguiKey.D
  | 'e' => some EguiKey.E
  | 'f' => some EguiKey.F
  | 'g' => some EguiKey.G
  | 'h' => some EguiKey.H
  | 'i' => some EguiKey.I
  | 'j' => some EguiKey.J
  | 'k' => some EguiKey.K
  | 'l' => some EguiKey.L
  | 'm' => some EguiKey.M
  | 'n' => some EguiKey.N
  | 'o' => some EguiKey.O
  | 'p' => some EguiKey.P
  | 'q' => some EguiKey.Q
  | 'r' => some EguiKey.R
  | 's' => some EguiKey.S
  | 't' => some EguiKey.T
  | 'u' => some EguiKey.U
  | 'v' => some EguiKey.V
  | 'w' => some EguiKey.W
  | 'x' => some EguiKey.X
  | 'y' => some EguiKey.Y
  | 'z' => some EguiKey.Z
  | '0' => some EguiKey.Num0
  | '1' => some EguiKey.Num1
  | '2' => some EguiKey.Num2
  | '3' => some EguiKey.Num3
  | '4' => some EguiKey.Num4
  | '5' => some EguiKey.Num5
  | '6' => some EguiKey.Num6
  | '7' => some EguiKey.Num7
  | '8' => some EguiKey.Num8
  | '9' => some EguiKey.Num9
  | _ => none

/-- Embedding of `translate_virtual_key_code`: the named special keys are
matched first, every other code goes through `to_char`. -/
def translate_virtual_key_code (key : Nat) : Option EguiKey :=
  if key = fkLeft then some EguiKey.ArrowLeft
  else if key = fkUp then some EguiKey.ArrowUp
  else if key = fkRight then some EguiKey.ArrowRight
  else if key = fkDown then some EguiKey.ArrowDown
  else if key = fkEscape then some EguiKey.Escape
  else if key = fkTab then some EguiKey.Tab
  else if key = fkBackSpace then some EguiKey.Backspace
  else if key = fkInsert then some EguiKey.Insert
  else if key = fkHome then some EguiKey.Home
  else if key = fkDelete then some EguiKey.Delete
  else if key = fkEnd then some EguiKey.End
  else if key = fkPageDown then some EguiKey.PageDown
  else if key = fkPageUp then some EguiKey.PageUp
  else if key = fkEnter then some EguiKey.Enter
  else
    match fltkKeyToChar key with
    | some k => charKey k
    | none => none

/-- Embedding of the cursor mapping inside `translate_cursor`: egui cursor
icon to FLTK cursor, with the arrow as the wildcard fallback. -/
def cursorIconToFltk (cursor_icon : CursorIcon) : FltkCursor :=
  match cursor_icon with
  | CursorIcon.NoIcon => FltkCursor.NoCursor
  | CursorIcon.Default => FltkCursor.Arrow
  | CursorIcon.Help => FltkCursor.Help
  | CursorIcon.PointingHand => FltkCursor.Hand
  | CursorIcon.ResizeHorizontal => FltkCursor.WE
  | CursorIcon.ResizeNeSw => FltkCursor.NESW
  | CursorIcon.ResizeNwSe => FltkCursor.NWSE
  | CursorIcon.ResizeVertical => FltkCursor.NS
  | CursorIcon.Text => FltkCursor.Insert
  | CursorIcon.Crosshair => FltkCursor.Cross
  | CursorIcon.NotAllowed => FltkCursor.Wait
  | CursorIcon.NoDrop => FltkCursor.Wait
  | CursorIcon.Wait => FltkCursor.Wait
  | CursorIcon.Progress => FltkCursor.Wait
  | CursorIcon.Grab => FltkCursor.Hand
  | CursorIcon.Grabbing => FltkCursor.Move
  | CursorIcon.Move => FltkCursor.Move
  | _ => FltkCursor.Arrow

/-- Embedding of `translate_cursor`. The host side effect `win.set_cursor`
is returned as an `Option FltkCursor`: `some c` means the host call
`set_cursor c` was performed, `none` means no host call. -/
def translate_cursor (fused : FusedCursor) (cursor_icon : CursorIcon) :
    FusedCursor × Option FltkCursor :=
  let tmp_icon := cursorIconToFltk cursor_icon
  if tmp_icon ≠ fused.cursor_icon then
    ({ cursor_icon := tmp_icon }, some tmp_icon)
  else
    (fused, none)

/-- Read-only host environment: the FLTK accessors `input_to_egui` consults
(`win.*` queries and `app::event_*` state), plus `fexp`, the abstract model
of the external `f32::exp`. -/
structure HostEnv where
  width : Int
  height : Int
  pixels_per_unit : ℚ
  event_mouse_button : MouseButton
  event_coords : Int × Int
  event_key : Nat
  event_state : Nat
  event_text : List Char
  compose : Option Int
  event_dy : MouseWheelDir
  fexp : ℚ → ℚ

/-- Embedding of fltk-rs `app::is_event_ctrl()`: whether the ctrl bit is set
in the current event state. -/
def is_event_ctrl (env : HostEnv) : Bool := Nat.land env.event_state flCTRL == flCTRL

/-- The modifier snapshot the key handlers build from `app::event_state()`. -/
def modifiersOf (keymod : Nat) : Modifiers :=
  { alt := Nat.land keymod flALT == flALT
  , ctrl := Nat.land keymod flCTRL == flCTRL
  , shift := Nat.land keymod flSHIFT == flSHIFT
  , mac_cmd := Nat.land keymod flMETA == flMETA
  , command := Nat.land keymod flCOMMAND == flCOMMAND }

/-- Embedding of `EguiState` (`src/lib.rs`). The `Clipboard` component lives
in `clipboard.rs`, which is not among the provided sources; following the
spec, it is modelled as the owned text (see `clipboardGet`). -/
structure EguiState where
  canvas_size : Nat × Nat
  clipboard : String
  fuse_cursor : FusedCursor
  input : RawInput
  modifiers : Modifiers
  pixels_per_point : ℚ
  pointer_pos : Pos2
  screen_rect : Rect
  scroll_factor : ℚ
  zoom_factor : ℚ
  _window_resized : Bool
deriving Repr

/-- Modelled from the spec: `Clipboard::get` (the missing `clipboard.rs`)
reads the host clipboard text and yields it only when non-empty ("read
clipboard and, if non-empty, emit a text-insertion event"). -/
def clipboardGet (content : String) : Option String :=
  if content = "" then none else some content

/-- Embedding of `EguiState::new`: built from the window's width, height and
`pixels_per_unit`. -/
def EguiState.new (width height : Int) (ppu : ℚ) : EguiState :=
  let rect : Vec2 := { x := (width : ℚ) / ppu, y := (height : ℚ) / ppu }
  let screen_rect := Rect.from_min_size { x := 0, y := 0 } rect
  { canvas_size := (((width % 2 ^ 32).toNat), ((height % 2 ^ 32).toNat))
  , clipboard := ""
  , fuse_cursor := FusedCursor.new
  , input := { events := [], screen_rect := some screen_rect
             , pixels_per_point := some ppu }
  , modifiers := Modifiers.default
  , pixels_per_point := ppu
  , pointer_pos := { x := 0, y := 0 }
  , screen_rect := screen_rect
  , scroll_factor := 12
  , zoom_factor := 8
  , _window_resized := false }

/-- Appending one egui event to the state's input queue
(`state.input.events.push(...)`). -/
def pushEvent (state : EguiState) (e : EguiEvent) : EguiState :=
  { state with input := { state.input with events := state.input.events ++ [e] } }

/-- The mouse-button mapping shared by the `Push` and `Released` arms. -/
def mouseButtonToEgui (b : MouseButton) : Option EguiPointerButton :=
  match b with
  | MouseButton.Left => some EguiPointerButton.Primary
  | MouseButton.Middle => some EguiPointerButton.Middle
  | MouseButton.Right => some EguiPointerButton.Secondary
  | MouseButton.Other => none

/-- Embedding of `input_to_egui` (`src/lib.rs`): one FLTK event mutates the
state. Host writes other than to `EguiState` (only `app::compose_reset`)
are dropped, matching that no claim concerns them. -/
def input_to_egui (env : HostEnv) (event : FltkEvent) (state : EguiState) :
    EguiState :=
  match event with
  | FltkEvent.Resize =>
    let ppu := env.pixels_per_unit
    let state := { state with
      input := { state.input with pixels_per_point := some ppu } }
    let w := env.width
    let h := env.height
    let state := { state with
      canvas_size := ((w % 2 ^ 32).toNat, (h % 2 ^ 32).toNat) }
    let rect : Vec2 := { x := (w : ℚ) / ppu, y := (h : ℚ) / ppu }
    let state := { state with
      input := { state.input with
        screen_rect := some (Rect.from_min_size { x := 0, y := 0 } rect) } }
    { state with _window_resized := true }
  | FltkEvent.Push =>
    match mouseButtonToEgui env.event_mouse_button with
    | some pressed =>
      pushEvent state (EguiEvent.PointerButton state.pointer_pos pressed true
        state.modifiers)
    | none => state
  | FltkEvent.Released =>
    match mouseButtonToEgui env.event_mouse_button with
    | some released =>
      pushEvent state (EguiEvent.PointerButton state.pointer_pos released false
        state.modifiers)
    | none => state
  | FltkEvent.Move =>
    let x := env.event_coords.1
    let y := env.event_coords.2
    let pixels_per_point := state.pixels_per_point
    let p : Pos2 := { x := (x : ℚ) / pixels_per_point
                    , y := (y : ℚ) / pixels_per_point }
    pushEvent { state with pointer_pos := p } (EguiEvent.PointerMoved p)
  | FltkEvent.Drag =>
    let x := env.event_coords.1
    let y := env.event_coords.2
    let pixels_per_point := state.pixels_per_point
    let p : Pos2 := { x := (x : ℚ) / pixels_per_point
                    , y := (y : ℚ) / pixels_per_point }
    pushEvent { state with pointer_pos := p } (EguiEvent.PointerMoved p)
  | FltkEvent.KeyUp =>
    match translate_virtual_key_code env.event_key with
    | some key =>
      let m := modifiersOf env.event_state
      let state := { state with modifiers := m }
      if m.command && key == EguiKey.V then
        match clipboardGet state.clipboard with
        | some value => pushEvent state (EguiEvent.Text value)
        | none => state
      else state
    | none => state
  | FltkEvent.KeyDown =>
    let state :=
      match env.event_text.head? with
      | some c =>
        match env.compose with
        | some _ => pushEvent state (EguiEvent.Text (String.singleton c))
        | none => state
      | none => state
    match translate_virtual_key_code env.event_key with
    | some key =>
      let m := modifiersOf env.event_state
      let state := { state with modifiers := m }
      let state := pushEvent state (EguiEvent.Key key true m)
      if m.command && key == EguiKey.C then
        pushEvent state EguiEvent.Copy
      else if m.command && key == EguiKey.X then
        pushEvent state EguiEvent.Cut
      else
        pushEvent state (EguiEvent.Key key false m)
    | none => state
  | FltkEvent.MouseWheel =>
    if is_event_ctrl env then
      let zoom_factor := state.zoom_factor
      match env.event_dy with
      | MouseWheelDir.Up =>
        let delta : Vec2 := { x := 1 * zoom_factor, y := -1 * zoom_factor }
        pushEvent state (EguiEvent.Zoom (env.fexp (delta.y / 200)))
      | MouseWheelDir.Down =>
        let delta : Vec2 := { x := -1 * zoom_factor, y := 1 * zoom_factor }
        pushEvent state (EguiEvent.Zoom (env.fexp (delta.y / 200)))
      | MouseWheelDir.Other => state
    else
      let scroll_factor := state.scroll_factor
      match env.event_dy with
      | MouseWheelDir.Up =>
        pushEvent state (EguiEvent.Scroll { x := 0, y := -scroll_factor })
      | MouseWheelDir.Down =>
        pushEvent state (EguiEvent.Scroll { x := 0, y := scroll_factor })
      | MouseWheelDir.Other => state
  | _ => state

/-- The eight FLTK event tags `input_to_egui` handles; every other tag falls
through to the wildcard no-op arm. -/
def handledEvents : List FltkEvent :=
  [FltkEvent.Resize, FltkEvent.Push, FltkEvent.Released, FltkEvent.Move,
   FltkEvent.Drag, FltkEvent.KeyUp, FltkEvent.KeyDown, FltkEvent.MouseWheel]

/-- The FLTK key code each mapped egui key comes from: the inverse of the
translation table. -/
def eguiKeyCode (e : EguiKey) : Nat :=
  match e with
  | EguiKey.ArrowLeft => fkLeft
  | EguiKey.ArrowUp => fkUp
  | EguiKey.ArrowRight => fkRight
  | EguiKey.ArrowDown => fkDown
  | EguiKey.Escape => fkEscape
  | EguiKey.Tab => fkTab
  | EguiKey.Backspace => fkBackSpace
  | EguiKey.Insert => fkInsert
  | EguiKey.Home => fkHome
  | EguiKey.Delete => fkDelete
  | EguiKey.End => fkEnd
  | EguiKey.PageDown => fkPageDown
  | EguiKey.PageUp => fkPageUp
  | EguiKey.Enter => fkEnter
  | EguiKey.Space => 32
  | EguiKey.A => 97 | EguiKey.B => 98 | EguiKey.C => 99 | EguiKey.D => 100
  | EguiKey.E => 101 | EguiKey.F => 102 | EguiKey.G => 103 | EguiKey.H => 104
  | EguiKey.I => 105 | EguiKey.J => 106 | EguiKey.K => 107 | EguiKey.L => 108
  | EguiKey.M => 109 | EguiKey.N => 110 | EguiKey.O => 111 | EguiKey.P => 112
  | EguiKey.Q => 113 | EguiKey.R => 114 | EguiKey.S => 115 | EguiKey.T => 116
  | EguiKey.U => 117 | EguiKey.V => 118 | EguiKey.W => 119 | EguiKey.X => 120
  | EguiKey.Y => 121 | EguiKey.Z => 122
  | EguiKey.Num0 => 48 | EguiKey.Num1 => 49 | EguiKey.Num2 => 50
  | EguiKey.Num3 => 51 | EguiKey.Num4 => 52 | EguiKey.Num5 => 53
  | EguiKey.Num6 => 54 | EguiKey.Num7 => 55 | EguiKey.Num8 => 56
  | EguiKey.Num9 => 57

/-- The domain of the translation table: every FLTK key code that maps to
an egui key. -/
def mappedKeyCodes : List Nat :=
  [fkLeft, fkUp, fkRight, fkDown, fkEscape, fkTab, fkBackSpace, fkInsert,
   fkHome, fkDelete, fkEnd, fkPageDown, fkPageUp, fkEnter,
   32, 97, 98, 99, 100, 101, 102, 103, 104, 105, 106, 107, 108, 109, 110,
   111, 112, 113, 114, 115, 116, 117, 118, 119, 120, 121, 122,
   48, 49, 50, 51, 52, 53, 54, 55, 56, 57]

set_option maxRecDepth 8000 in
set_option maxHeartbeats 1600000 in
/-- On the ASCII range, the character arm of the table recovers the key
code through `eguiKeyCode`. -/
theorem charKey_inv (n : Fin 128) (e : EguiKey)
    (h : charKey (Char.ofNat n.val) = some e) : n.val = eguiKeyCode e := by
  revert e h
  revert n
  decide

set_option maxRecDepth 8000 in
set_option maxHeartbeats 1600000 in
/-- On the ASCII range, codes outside the table domain are unmapped by the
character arm. -/
theorem charKey_unmapped (n : Fin 128) (hn : n.val ∉ mappedKeyCodes) :
    charKey (Char.ofNat n.val) = none := by
  revert hn
  revert n
  decide

/-- A mapped key code is recovered from its egui key by `eguiKeyCode`. -/
theorem translate_virtual_key_code_inv (k : Nat) (e : EguiKey)
    (h : translate_virtual_key_code k = some e) : k = eguiKeyCode e := by
  unfold translate_virtual_key_code at h
  by_cases h1 : k = fkLeft
  · rw [if_pos h1] at h; cases h; exact h1
  rw [if_neg h1] at h
  by_cases h2 : k = fkUp
  · rw [if_pos h2] at h; cases h; exact h2
  rw [if_neg h2] at h
  by_cases h3 : k = fkRight
  · rw [if_pos h3] at h; cases h; exact h3
  rw [if_neg h3] at h
  by_cases h4 : k = fkDown
  · rw [if_pos h4] at h; cases h; exact h4
  rw [if_neg h4] at h
  by_cases h5 : k = fkEscape
  · rw [if_pos h5] at h; cases h; exact h5
  rw [if_neg h5] at h
  by_cases h6 : k = fkTab
  · rw [if_pos h6] at h; cases h; exact h6
  rw [if_neg h6] at h
  by_cases h7 : k = fkBackSpace
  · rw [if_pos h7] at h; cases h; exact h7
  rw [if_neg h7] at h
  by_cases h8 : k = fkInsert
  · rw [if_pos h8] at h; cases h; exact h8
  rw [if_neg h8] at h
  by_cases h9 : k = fkHome
  · rw [if_pos h9] at h; cases h; exact h9
  rw [if_neg h9] at h
  by_cases h10 : k = fkDelete
  · rw [if_pos h10] at h; cases h; exact h10
  rw [if_neg h10] at h
  by_cases h11 : k = fkEnd
  · rw [if_pos h11] at h; cases h; exact h11
  rw [if_neg h11] at h
  by_cases h12 : k = fkPageDown
  · rw [if_pos h12] at h; cases h; exact h12
  rw [if_neg h12] at h
  by_cases h13 : k = fkPageUp
  · rw [if_pos h13] at h; cases h; exact h13
  rw [if_neg h13] at h
  by_cases h14 : k = fkEnter
  · rw [if_pos h14] at h; cases h; exact h14
  rw [if_neg h14] at h
  cases hfc : fltkKeyToChar k with
  | none =>
    rw [hfc] at h
    exact absurd h (by simp)
  | some c =>
    rw [hfc] at h
    unfold fltkKeyToChar at hfc
    split_ifs at hfc with hk
    cases hfc
    exact charKey_inv ⟨k, hk.2⟩ e h

/-- Codes outside the table domain translate to none. -/
theorem translate_virtual_key_code_unmapped (k : Nat) (hk : k ∉ mappedKeyCodes) :
    translate_virtual_key_code k = none := by
  unfold translate_virtual_key_code
  have h1 : k ≠ fkLeft := fun h => hk (by rw [h]; decide)
  have h2 : k ≠ fkUp := fun h => hk (by rw [h]; decide)
  have h3 : k ≠ fkRight := fun h => hk (by rw [h]; decide)
  have h4 : k ≠ fkDown := fun h => hk (by rw [h]; decide)
  have h5 : k ≠ fkEscape := fun h => hk (by rw [h]; decide)
  have h6 : k ≠ fkTab := fun h => hk (by rw [h]; decide)
  have h7 : k ≠ fkBackSpace := fun h => hk (by rw [h]; decide)
  have h8 : k ≠ fkInsert := fun h => hk (by rw [h]; decide)
  have h9 : k ≠ fkHome := fun h => hk (by rw [h]; decide)
  have h10 : k ≠ fkDelete := fun h => hk (by rw [h]; decide)
  have h11 : k ≠ fkEnd := fun h => hk (by rw [h]; decide)
  have h12 : k ≠ fkPageDown := fun h => hk (by rw [h]; decide)
  have h13 : k ≠ fkPageUp := fun h => hk (by rw [h]; decide)
  have h14 : k ≠ fkEnter := fun h => hk (by rw [h]; decide)
  rw [if_neg h1, if_neg h2, if_neg h3, if_neg h4, if_neg h5, if_neg h6,
    if_neg h7, if_neg h8, if_neg h9, if_neg h10, if_neg h11, if_neg h12,
    if_neg h13, if_neg h14]
  cases hfc : fltkKeyToChar k with
  | none => rfl
  | some c =>
    show charKey c = none
    unfold fltkKeyToChar at hfc
    split_ifs at hfc with hcond
    cases hfc
    exact charKey_unmapped ⟨k, hcond.2⟩ hk

/-- A concrete host environment used by the witnesses: a 1024x768 window at
scale 1.25, key code 99 (the character c), no modifier bits, pointer at
pixel (100, 50), wheel direction up, empty composed text, identity in place
of the external exponential. -/
def envBase : HostEnv :=
  { width := 1024
  , height := 768
  , pixels_per_unit := 1.25
  , event_mouse_button := MouseButton.Left
  , event_coords := (100, 50)
  , event_key := 99
  , event_state := 0
  , event_text := []
  , compose := none
  , event_dy := MouseWheelDir.Up
  , fexp := fun q => q }

/-- The witness environment with the command (= ctrl) modifier bit set. -/
def envCmdC : HostEnv := { envBase with event_state := 262144 }

/-- The witness environment with command held and key code 118 (the
character v). -/
def envCmdV : HostEnv := { envBase with event_state := 262144, event_key := 118 }

/-- A concrete state used by the witnesses: a fresh 800x600 state at
scale 1. -/
def stateBase : EguiState := EguiState.new 800 600 1

/-- The witness state whose clipboard holds "hello". -/
def stateClip : EguiState := { stateBase with clipboard := "hello" }

/-- C8: the host-key-to-engine-key translation is injective on its mapped
domain (two host codes translating to the same engine key are equal), and
every code outside the table domain translates to none. -/
theorem translate_virtual_key_code_injective :
    (∀ k1 k2 e, translate_virtual_key_code k1 = some e →
        translate_virtual_key_code k2 = some e → k1 = k2) ∧
    (∀ k, k ∉ mappedKeyCodes → translate_virtual_key_code k = none) := by
  constructor
  · intro k1 k2 e hk1 hk2
    rw [translate_virtual_key_code_inv k1 e hk1,
      translate_virtual_key_code_inv k2 e hk2]
  · exact translate_virtual_key_code_unmapped

/-- Witness for C8 at the code 99 (maps to key C) and the unmapped
code 1000. -/
theorem translate_virtual_key_code_injective_witness :
    (99 : Nat) = 99 ∧ translate_virtual_key_code 1000 = none :=
  ⟨translate_virtual_key_code_injective.1 99 99 EguiKey.C (by decide) (by decide),
   translate_virtual_key_code_injective.2 1000 (by decide)⟩

/-- C7: translating the same icon twice performs the host set-cursor call at
most once: after any call the stored cursor equals the translated icon, and
the second call makes no host call and leaves the cursor cache unchanged. -/
theorem translate_cursor_second_call_noop :
    ∀ (fused : FusedCursor) (icon : CursorIcon),
      (translate_cursor fused icon).1.cursor_icon = cursorIconToFltk icon ∧
      (translate_cursor (translate_cursor fused icon).1 icon).2 = none ∧
      (translate_cursor (translate_cursor fused icon).1 icon).1 =
        (translate_cursor fused icon).1 := by
  intro fused icon
  by_cases h : cursorIconToFltk icon = fused.cursor_icon
  · simp [translate_cursor, h]
  · simp [translate_cursor, h]

/-- C9: event tags outside the handled set leave the state fully
unchanged. -/
theorem input_to_egui_unhandled_noop (env : HostEnv) (e : FltkEvent)
    (s : EguiState) (he : e ∉ handledEvents) : input_to_egui env e s = s := by
  cases e <;> first
    | rfl
    | exact absurd (by decide) he

/-- Witness for C9 at the unhandled tag `NoEvent`. -/
theorem input_to_egui_unhandled_noop_witness :
    input_to_egui envBase FltkEvent.NoEvent stateBase = stateBase :=
  input_to_egui_unhandled_noop envBase FltkEvent.NoEvent stateBase (by decide)

/-- C1: a key-down whose key translates to C pushes, when command is held,
a key-down event followed by a Copy event and no synthesized key-up, and,
when command is not held, a key-down event immediately followed by a key-up
event for the same key with the same modifier snapshot. -/
theorem keydown_copy_shortcut (env : HostEnv) (s : EguiState)
    (htext : env.event_text = [])
    (hkey : translate_virtual_key_code env.event_key = some EguiKey.C) :
    ((modifiersOf env.event_state).command = true →
      (input_to_egui env FltkEvent.KeyDown s).input.events =
        s.input.events ++
          [EguiEvent.Key EguiKey.C true (modifiersOf env.event_state),
           EguiEvent.Copy]) ∧
    ((modifiersOf env.event_state).command = false →
      (input_to_egui env FltkEvent.KeyDown s).input.events =
        s.input.events ++
          [EguiEvent.Key EguiKey.C true (modifiersOf env.event_state),
           EguiEvent.Key EguiKey.C false (modifiersOf env.event_state)]) := by
  constructor <;> intro hcmd <;>
    simp [input_to_egui, htext, hkey, hcmd, pushEvent]

/-- Witness for C1: key code 99 with the command bit set pushes key-down
then Copy. -/
theorem keydown_copy_shortcut_witness :
    (input_to_egui envCmdC FltkEvent.KeyDown stateBase).input.events =
      stateBase.input.events ++
        [EguiEvent.Key EguiKey.C true (modifiersOf envCmdC.event_state),
         EguiEvent.Copy] :=
  (keydown_copy_shortcut envCmdC stateBase rfl (by decide)).1 (by decide)

/-- C10: a key-down on the paste shortcut (command held, key V) still gets
the synthesized key-up: every translated key outside command+C and
command+X pushes the press-and-release pair. -/
theorem keydown_nonshortcut_synthesized_keyup (env : HostEnv) (s : EguiState)
    (key : EguiKey) (htext : env.event_text = [])
    (hkey : translate_virtual_key_code env.event_key = some key)
    (hnc : ¬((modifiersOf env.event_state).command = true ∧
        (key = EguiKey.C ∨ key = EguiKey.X))) :
    (input_to_egui env FltkEvent.KeyDown s).input.events =
      s.input.events ++
        [EguiEvent.Key key true (modifiersOf env.event_state),
         EguiEvent.Key key false (modifiersOf env.event_state)] := by
  by_cases hcmd : (modifiersOf env.event_state).command = true
  · have hC : key ≠ EguiKey.C := fun h => hnc ⟨hcmd, Or.inl h⟩
    have hX : key ≠ EguiKey.X := fun h => hnc ⟨hcmd, Or.inr h⟩
    simp [input_to_egui, htext, hkey, hcmd, hC, hX, pushEvent]
  · have hcmd0 : (modifiersOf env.event_state).command = false := by
      revert hcmd
      cases (modifiersOf env.event_state).command <;> simp
    simp [input_to_egui, htext, hkey, hcmd0, pushEvent]

/-- Witness for C10: key code 118 (v) with command held gets the
press-and-release pair. -/
theorem keydown_nonshortcut_synthesized_keyup_witness :
    (input_to_egui envCmdV FltkEvent.KeyDown stateBase).input.events =
      stateBase.input.events ++
        [EguiEvent.Key EguiKey.V true (modifiersOf envCmdV.event_state),
         EguiEvent.Key EguiKey.V false (modifiersOf envCmdV.event_state)] :=
  keydown_nonshortcut_synthesized_keyup envCmdV stateBase EguiKey.V rfl
    (by decide) (by decide)

/-- C4: a key-up on the paste shortcut (command held, key V) pushes exactly
one text-insertion event carrying the clipboard text when it is non-empty,
and pushes nothing when the clipboard is empty. -/
theorem keyup_paste_clipboard (env : HostEnv) (s : EguiState)
    (hkey : translate_virtual_key_code env.event_key = some EguiKey.V)
    (hcmd : (modifiersOf env.event_state).command = true) :
    (s.clipboard ≠ "" →
      (input_to_egui env FltkEvent.KeyUp s).input.events =
        s.input.events ++ [EguiEvent.Text s.clipboard]) ∧
    (s.clipboard = "" →
      (input_to_egui env FltkEvent.KeyUp s).input.events = s.input.events) := by
  constructor <;> intro hc <;>
    simp [input_to_egui, hkey, hcmd, clipboardGet, hc, pushEvent]

/-- Witness for C4: clipboard "hello" yields exactly one text event
carrying "hello". -/
theorem keyup_paste_clipboard_witness :
    (input_to_egui envCmdV FltkEvent.KeyUp stateClip).input.events =
      stateClip.input.events ++ [EguiEvent.Text stateClip.clipboard] :=
  (keyup_paste_clipboard envCmdV stateClip (by decide) (by decide)).1 (by decide)

/-- C5: with control held and zoom_factor 8, wheel-up pushes exactly one
Zoom event of value exp((1 * -8) / 200) and wheel-down one of value
exp(8 / 200); the real value exp((1 * -8) / 200) lies in [0.96, 0.962),
matching the quoted approximation 0.9608. -/
theorem mousewheel_ctrl_zoom (env : HostEnv) (s : EguiState)
    (hctrl : is_event_ctrl env = true) (hzoom : s.zoom_factor = 8) :
    (env.event_dy = MouseWheelDir.Up →
      (input_to_egui env FltkEvent.MouseWheel s).input.events =
        s.input.events ++ [EguiEvent.Zoom (env.fexp ((1 * -8) / 200))]) ∧
    (env.event_dy = MouseWheelDir.Down →
      (input_to_egui env FltkEvent.MouseWheel s).input.events =
        s.input.events ++ [EguiEvent.Zoom (env.fexp (8 / 200))]) ∧
    (0.96 : ℝ) ≤ Real.exp ((1 * -8) / 200) ∧
    Real.exp ((1 * -8) / 200 : ℝ) < 0.962 := by
  refine ⟨?_, ?_, ?_, ?_⟩
  · intro hdy
    simp [input_to_egui, hctrl, hdy, hzoom, pushEvent]
  · intro hdy
    simp [input_to_egui, hctrl, hdy, hzoom, pushEvent]
  · have h := Real.add_one_le_exp ((1 * -8) / 200 : ℝ)
    linarith
  · have harg : ((1 * -8) / 200 : ℝ) = -(8 / 200) := by norm_num
    rw [harg, Real.exp_neg]
    have h := Real.add_one_le_exp ((8 / 200 : ℝ))
    have hle : (Real.exp (8 / 200))⁻¹ ≤ (1 + 8 / 200 : ℝ)⁻¹ := by
      apply inv_anti₀
      · norm_num
      · linarith
    calc (Real.exp (8 / 200))⁻¹ ≤ (1 + 8 / 200 : ℝ)⁻¹ := hle
      _ < 0.962 := by norm_num

/-- Witness for C5: ctrl-wheel-up on the witness state pushes the single
Zoom event. -/
theorem mousewheel_ctrl_zoom_witness :
    (input_to_egui envCmdC FltkEvent.MouseWheel stateBase).input.events =
      stateBase.input.events ++ [EguiEvent.Zoom (envCmdC.fexp ((1 * -8) / 200))] :=
  (mousewheel_ctrl_zoom envCmdC stateBase (by decide) (by decide)).1 rfl

/-- C6: without control, wheel-up pushes exactly one Scroll event with
x 0 and y minus the scroll factor, wheel-down one with y plus the scroll
factor; no Zoom event appears on this path. -/
theorem mousewheel_scroll (env : HostEnv) (s : EguiState)
    (hctrl : is_event_ctrl env = false) :
    (env.event_dy = MouseWheelDir.Up →
      (input_to_egui env FltkEvent.MouseWheel s).input.events =
        s.input.events ++
          [EguiEvent.Scroll { x := 0, y := -s.scroll_factor }]) ∧
    (env.event_dy = MouseWheelDir.Down →
      (input_to_egui env FltkEvent.MouseWheel s).input.events =
        s.input.events ++
          [EguiEvent.Scroll { x := 0, y := s.scroll_factor }]) := by
  constructor <;> intro hdy <;> simp [input_to_egui, hctrl, hdy, pushEvent]

/-- Witness for C6: wheel-up without control pushes the single Scroll
event with the negated scroll factor. -/
theorem mousewheel_scroll_witness :
    (input_to_egui envBase FltkEvent.MouseWheel stateBase).input.events =
      stateBase.input.events ++
        [EguiEvent.Scroll { x := 0, y := -stateBase.scroll_factor }] :=
  (mousewheel_scroll envBase stateBase (by decide)).1 rfl

/-- C3: a Resize with pixel size 1024x768 at scale 1.25 sets the input's
screen rectangle to width 819.2 and height 614.4, the input's
pixels-per-point to 1.25, and the resize flag. -/
theorem resize_screen_rect (env : HostEnv) (s : EguiState)
    (hw : env.width = 1024) (hh : env.height = 768)
    (hp : env.pixels_per_unit = 1.25) :
    (input_to_egui env FltkEvent.Resize s).input.screen_rect.map Rect.width
      = some 819.2 ∧
    (input_to_egui env FltkEvent.Resize s).input.screen_rect.map Rect.height
      = some 614.4 ∧
    (input_to_egui env FltkEvent.Resize s).input.pixels_per_point
      = some 1.25 ∧
    (input_to_egui env FltkEvent.Resize s)._window_resized = true := by
  simp [input_to_egui, hw, hh, hp, Rect.from_min_size, Rect.width, Rect.height]
  norm_num

/-- Witness for C3 on the concrete witness environment. -/
theorem resize_screen_rect_witness :
    (input_to_egui envBase FltkEvent.Resize stateBase).input.screen_rect.map
        Rect.width = some 819.2 ∧
    (input_to_egui envBase FltkEvent.Resize stateBase).input.screen_rect.map
        Rect.height = some 614.4 ∧
    (input_to_egui envBase FltkEvent.Resize stateBase).input.pixels_per_point
      = some 1.25 ∧
    (input_to_egui envBase FltkEvent.Resize stateBase)._window_resized = true :=
  resize_screen_rect envBase stateBase rfl rfl rfl

/-- The counterexample environment for the pointer-scale claim: the host
reports scale 2 and pointer pixel coordinates (100, 100). -/
def envScale2 : HostEnv :=
  { envBase with pixels_per_unit := 2, event_coords := (100, 100) }

/-- Counterexample to C2 as stated: starting from a fresh state built at
scale 1, a Resize reporting scale 2 is dispatched (so the scale in effect
after the most recent Resize is 2, as the updated input shows), yet the
following Move at pixel (100, 100) sets the pointer to (100, 100) — the
coordinates divided by the stale stored scale 1 — and not to
(100 / 2, 100 / 2). -/
theorem move_uses_stale_scale_cex :
    (input_to_egui envScale2 FltkEvent.Resize
        (EguiState.new 640 480 1)).input.pixels_per_point = some 2 ∧
    (input_to_egui envScale2 FltkEvent.Move
        (input_to_egui envScale2 FltkEvent.Resize
          (EguiState.new 640 480 1))).pointer_pos = { x := 100, y := 100 } ∧
    ({ x := 100, y := 100 } : Pos2) ≠ { x := 100 / 2, y := 100 / 2 } := by
  refine ⟨?_, ?_, ?_⟩
  · simp [input_to_egui, envScale2, envBase, EguiState.new]
  · simp [input_to_egui, envScale2, envBase, EguiState.new, pushEvent]
  · simp only [ne_eq, Pos2.mk.injEq, not_and]
    norm_num

/-- C2 as amended: Move and Drag divide the raw pixel coordinates by the
state's stored pixels_per_point field — which is set at construction and
left unchanged by Resize (Resize only updates the RawInput's
pixels_per_point) — and push a pointer-moved event carrying that
position. -/
theorem move_drag_pointer_pos (env : HostEnv) (s : EguiState) (e : FltkEvent)
    (he : e = FltkEvent.Move ∨ e = FltkEvent.Drag) :
    (input_to_egui env e s).pointer_pos =
      { x := (env.event_coords.1 : ℚ) / s.pixels_per_point
      , y := (env.event_coords.2 : ℚ) / s.pixels_per_point } ∧
    (input_to_egui env e s).input.events =
      s.input.events ++
        [EguiEvent.PointerMoved
          { x := (env.event_coords.1 : ℚ) / s.pixels_per_point
          , y := (env.event_coords.2 : ℚ) / s.pixels_per_point }] ∧
    (input_to_egui env FltkEvent.Resize s).pixels_per_point =
      s.pixels_per_point := by
  rcases he with h | h <;> subst h <;> simp [input_to_egui, pushEvent]

/-- Witness for the amended C2 at a concrete Move. -/
theorem move_drag_pointer_pos_witness :
    (input_to_egui envBase FltkEvent.Move stateBase).pointer_pos =
      { x := (envBase.event_coords.1 : ℚ) / stateBase.pixels_per_point
      , y := (envBase.event_coords.2 : ℚ) / stateBase.pixels_per_point } ∧
    (input_to_egui envBase FltkEvent.Move stateBase).input.events =
      stateBase.input.events ++
        [EguiEvent.PointerMoved
          { x := (envBase.event_coords.1 : ℚ) / stateBase.pixels_per_point
          , y := (envBase.event_coords.2 : ℚ) / stateBase.pixels_per_point }] ∧
    (input_to_egui envBase FltkEvent.Resize stateBase).pixels_per_point =
      stateBase.pixels_per_point :=
  move_drag_pointer_pos envBase stateBase FltkEvent.Move (Or.inl rfl)
